import Mathlib

/-!
Verification development for the TFM ingestion pipeline
(`src/week1_ingestion/...`, `src/scripts/demo_fetch.py`,
`src/archive/week1_data_consumption_demo/scripts/demo_fetch.py`).

The Python code is shallowly embedded: JSON values become an inductive
`Json` type, stateful loops become recursive functions with explicit
accumulators, network and filesystem effects become function parameters
(one outcome per attempt / per source), and raising an exception becomes
returning `Except`.
-/

set_option maxRecDepth 10000

namespace TFM

/-- JSON-like values, as produced by Python's `json.loads`.  Python `None`
(JSON `null`) is `Json.null`; Python dicts keep insertion order, so objects
are ordered association lists. -/
inductive Json where
  | null
  | bool (b : Bool)
  | num (n : Int)
  | str (s : String)
  | arr (xs : List Json)
  | obj (fields : List (String × Json))
deriving Repr

/-- Lookup of a key in a Python dict (`d.get(k)`): first (unique) match. -/
def objGet (j : Json) (key : String) : Option Json :=
  match j with
  | .obj fields => fields.lookup key
  | _ => none

/-- Python truthiness of a JSON-like value (`bool(x)`). -/
def jsonTruthy : Json → Bool
  | .null => false
  | .bool b => b
  | .num n => n ≠ 0
  | .str s => s ≠ ""
  | .arr xs => !xs.isEmpty
  | .obj fields => !fields.isEmpty

/-- Python `a or b` over an optional lookup result: a missing key or a falsy
value falls back to the default (used for `config.get("sources") or []`). -/
def pyOrElse (v : Option Json) (dflt : Json) : Json :=
  match v with
  | some j => if jsonTruthy j then j else dflt
  | none => dflt

/-! ## `week1_ingestion/sources/extract.py` -/

/-- Model of `path.split(".")` on the underlying characters (same semantics as
Python `str.split` with an explicit separator, including empty pieces). -/
def splitOnDot : List Char → List (List Char)
  | [] => [[]]
  | c :: rest =>
    if c = '.' then [] :: splitOnDot rest
    else
      match splitOnDot rest with
      | [] => [[c]]
      | h :: t => (c :: h) :: t

/-- Model of `_get_by_dotted_path`: traverse a JSON-like object along `"a.b.c"`,
returning `none` when a segment is missing or the current value is not a
dict.  Python conflates JSON `null` payload values with "missing" only at
the *next* step (a `null` is not a dict), which this model mirrors because
`Json.null` has no keys. -/
def getByDottedPath (payload : Json) (path : String) : Option Json :=
  if path = "" then some payload
  else go payload (splitOnDot path.toList)
where
  go : Json → List (List Char) → Option Json
    | cur, [] => some cur
    | cur, part :: rest =>
      match objGet cur (String.mk part) with
      | some nxt => go nxt rest
      | none => none

/-- The `extract` entry of a source config: `record_path` (absent or the
empty string count as falsy in Python) and the ordered `value_paths` dict. -/
structure ExtractCfg where
  record_path : Option String
  value_paths : List (String × String)
deriving Repr

/-- Resolve every `value_paths` entry in order; the first entry that does not
resolve to a list raises (`ValueError`), exactly as the first loop of
`normalize_to_records`. -/
def resolveValuePaths (payload : Json) : List (String × String) → Except String (List (String × List Json))
  | [] => .ok []
  | (outKey, vp) :: rest =>
    match getByDottedPath payload vp with
    | some (.arr v) =>
      match resolveValuePaths payload rest with
      | .ok tl => .ok ((outKey, v) :: tl)
      | .error e => .error e
    | _ => .error ("value_path " ++ vp ++ " did not return a list")

/-- Python dict assignment `rec[k] = v`: replace an existing key in place,
otherwise append at the end. -/
def dictInsert : List (String × Json) → String → Json → List (String × Json)
  | [], k, v => [(k, v)]
  | (k', v') :: rest, k, v =>
    if k' = k then (k, v) :: rest else (k', v') :: dictInsert rest k v

/-- Model of `normalize_to_records(payload, extract_cfg)` from
`week1_ingestion/sources/extract.py`.  `ValueError` becomes `Except.error`.
The record-building loop `for i in range(n)` indexes every resolved list at
`i` (`getD i Json.null`; the default is never hit because all lengths were
checked equal to `n`). -/
def normalize_to_records (payload : Json) (extract_cfg : Option ExtractCfg) : Except String (List Json) :=
  match extract_cfg with
  | some cfg =>
    match cfg.record_path with
    | some rp =>
      if rp = "" then fallback payload
      else
        match getByDottedPath payload rp with
        | some (.arr base) =>
          match resolveValuePaths payload cfg.value_paths with
          | .error e => .error e
          | .ok value_lists =>
            let n := base.length
            match value_lists.find? (fun kv => kv.2.length ≠ n) with
            | some kv =>
              .error ("Length mismatch: " ++ kv.1 ++ " has " ++ toString kv.2.length
                        ++ " but base has " ++ toString n)
            | none =>
              .ok ((List.range n).map (fun i =>
                Json.obj (value_lists.foldl
                  (fun rec kv => dictInsert rec kv.1 (kv.2.getD i Json.null))
                  [("_index", Json.num (Int.ofNat i)), ("value", base.getD i Json.null)])))
        | _ => .error ("record_path " ++ rp ++ " did not return a list")
    | none => fallback payload
  | none => fallback payload
where
  /-- The "fallback simple" tail of `normalize_to_records`. -/
  fallback : Json → Except String (List Json)
    | .arr items =>
      .ok (items.map (fun item =>
        match item with
        | .obj fields => .obj fields
        | other => .obj [("value", other)]))
    | .obj fields => .ok [.obj fields]
    | other => .ok [.obj [("value", other)]]

/-- An extract config that is absent, has no `record_path`, or has an empty
one: Python falls through to the simple fallback in all three cases. -/
def noRecordPath : Option ExtractCfg → Bool
  | none => true
  | some cfg =>
    match cfg.record_path with
    | none => true
    | some rp => rp = ""

/-! ## `week1_ingestion/sources/base.py` and the three source `run` methods

Network, filesystem and clock effects are inputs: the outcome of each HTTP
attempt (or of the file read) is a parameter, and elapsed time is a
parameter.  Raising becomes `Except.error` carrying the exception message
(`exception_payload` keeps only type/message unless debug). -/

/-- Model of `SourceResult` from `week1_ingestion/sources/base.py`. -/
structure SourceResult where
  source_id : String
  ok : Bool
  records : Option (List Json)
  raw_saved : Bool
  elapsed_ms : Nat
  error : Option String
deriving Repr

/-- One attempt of `requests.request` inside
`HttpJsonSource._fetch_with_retries`: either a response (status plus the
JSON parse result of its body, `none` when the body is not valid JSON) or a
timeout/connection exception. -/
inductive HttpAttempt where
  | resp (status : Nat) (body : Option Json)
  | exc (msg : String)
deriving Repr

/-- Result of `_fetch_with_retries`, with observable attempt/sleep counts. -/
structure HttpFetchOut where
  result : Except String Json
  attempts : Nat
  sleeps : Nat
deriving Repr

/-- Loop body of `HttpJsonSource._fetch_with_retries`
(`for attempt in range(1, max_retries + 1)`).  `fuel` is the number of loop
iterations still permitted; the wrapper passes `max_retries`, so the base
case is exactly the post-loop `raise last_exc` (or the failing
`assert last_exc is not None` when the loop never ran).  `raise_for_status`
raises on every status `>= 400`; the bare `except Exception` retries on
*every* failure — HTTP errors and JSON decode errors included — sleeping
between attempts. -/
def httpFetchGo (step : Nat → HttpAttempt) (max_retries : Nat) :
    Nat → Nat → Nat → Nat → Option String → HttpFetchOut
  | 0, _, attempts, sleeps, last =>
    ⟨.error (last.getD "AssertionError"), attempts, sleeps⟩
  | fuel + 1, attempt, attempts, sleeps, _last =>
    let retryOr : String → HttpFetchOut := fun msg =>
      if attempt < max_retries then
        httpFetchGo step max_retries fuel (attempt + 1) (attempts + 1) (sleeps + 1) (some msg)
      else ⟨.error msg, attempts + 1, sleeps⟩
    match step attempt with
    | .resp status body =>
      if 400 ≤ status then retryOr ("HTTPError " ++ toString status)
      else
        match body with
        | some payload => ⟨.ok payload, attempts + 1, sleeps⟩
        | none => retryOr "ValueError: Response is not valid JSON"
    | .exc msg => retryOr msg

/-- Model of `HttpJsonSource._fetch_with_retries` (`week1_ingestion/sources/http_json.py`):
attempts are numbered `1 .. max_retries` (the loop is
`range(1, max_retries + 1)`, so `max_retries` is the *total* attempt
budget, not the extra-retry count). -/
def fetch_with_retries (step : Nat → HttpAttempt) (max_retries : Nat) : HttpFetchOut :=
  httpFetchGo step max_retries max_retries 1 0 0 none

/-- Model of `HttpJsonSource.run`: fetch (everything up to and including the JSON
parse), save `raw.json`, normalize; any exception becomes a failed
`SourceResult` with a structured error, never a raised exception. -/
def HttpJsonSource.run (source_id : String) (step : Nat → HttpAttempt)
    (max_retries : Nat) (extract_cfg : Option ExtractCfg) (elapsed : Nat) : SourceResult :=
  match (fetch_with_retries step max_retries).result with
  | .error msg =>
    { source_id := source_id, ok := false, records := none
      raw_saved := false, elapsed_ms := elapsed, error := some msg }
  | .ok payload =>
    match normalize_to_records payload extract_cfg with
    | .ok records =>
      { source_id := source_id, ok := true, records := some records
        raw_saved := true, elapsed_ms := elapsed, error := none }
    | .error msg =>
      { source_id := source_id, ok := false, records := none
        raw_saved := true, elapsed_ms := elapsed, error := some msg }

/-- Model of `FileJsonSource.run` (`week1_ingestion/sources/file_json.py`): the
read-and-parse of the input file is the effect parameter (`.error` = the
read or `json.loads` raised). -/
def FileJsonSource.run (source_id : String) (loaded : Except String Json)
    (extract_cfg : Option ExtractCfg) (elapsed : Nat) : SourceResult :=
  match loaded with
  | .error msg =>
    { source_id := source_id, ok := false, records := none
      raw_saved := false, elapsed_ms := elapsed, error := some msg }
  | .ok payload =>
    match normalize_to_records payload extract_cfg with
    | .ok records =>
      { source_id := source_id, ok := true, records := some records
        raw_saved := true, elapsed_ms := elapsed, error := none }
    | .error msg =>
      { source_id := source_id, ok := false, records := none
        raw_saved := true, elapsed_ms := elapsed, error := some msg }

/-- Model of `FileCsvSource.run` (`week1_ingestion/sources/file_csv.py`): the
open/`csv.DictReader` row loop is the effect parameter; on success the rows
themselves are the records (each row a dict). -/
def FileCsvSource.run (source_id : String) (readRows : Except String (List Json))
    (elapsed : Nat) : SourceResult :=
  match readRows with
  | .error msg =>
    { source_id := source_id, ok := false, records := none
      raw_saved := false, elapsed_ms := elapsed, error := some msg }
  | .ok rows =>
    { source_id := source_id, ok := true, records := some rows
      raw_saved := true, elapsed_ms := elapsed, error := none }

/-! ## `week1_ingestion/pipeline.py` — `run_pipeline` -/

/-- One entry of `manifest["sources"]` (the fields the claims observe;
output-path strings and the raw `type` value are omitted). -/
structure SrcEntry where
  ok : Bool
  records : Nat
deriving Repr

/-- Model of `manifest["summary"]`. -/
structure Summary where
  sources_ok : Nat
  sources_failed : Nat
  records_total : Nat
deriving Repr

/-- The manifest fields the claims observe (timestamps, config hash, git
commit and environment info are omitted). -/
structure Manifest where
  fatal_error : Option String
  sources : List SrcEntry
  summary : Summary
  ok : Bool
  exit_code : Nat
deriving Repr

/-- Observable outcome of `run_pipeline`: every `write_json(run_dir /
"manifest.json", ...)` call is logged in order in `manifest_writes`, and
`attempted` counts loop iterations (= sources for which build/run was
invoked). -/
structure PipeOut where
  manifest_writes : List Manifest
  attempted : Nat
  ok : Bool
  exit_code : Nat
deriving Repr

/-- Per-source outcome of `build_source(...)` followed by `src.run()`:
`.error` models an exception escaping either call (caught by the loop's
`except Exception`), `.ok` a returned `SourceResult`. -/
def SourceOutcome := Except String SourceResult

/-- Whether the pipeline's success branch fires for one source:
`result.ok and result.records is not None`; any exception is a failure. -/
def outcomeOk : SourceOutcome → Bool
  | .ok r => r.ok && r.records.isSome
  | .error _ => false

/-- The manifest entry the loop records for one source.  On the exception
path `src_entry["ok"]`/`"records"` stay `False`/`0`; note that a returned
result with `ok = True` but `records = None` keeps `entry.ok = true` while
still being counted as failed. -/
def entryOf (o : SourceOutcome) : SrcEntry :=
  match o with
  | .ok r =>
    { ok := r.ok
      records := if r.ok && r.records.isSome then (r.records.getD []).length else 0 }
  | .error _ => { ok := false, records := 0 }

/-- The `for source_cfg in sources_cfg` loop of `run_pipeline`, one source
per index: appends a manifest entry and updates the summary counters and
`all_ok`, never aborting on failure. -/
def pipeLoop (exec : Nat → SourceOutcome) :
    List Nat → List SrcEntry → Summary → Bool → List SrcEntry × Summary × Bool
  | [], entries, summary, all_ok => (entries, summary, all_ok)
  | i :: rest, entries, summary, all_ok =>
    let o := exec i
    let entry := entryOf o
    if outcomeOk o then
      pipeLoop exec rest (entries ++ [entry])
        { summary with
            sources_ok := summary.sources_ok + 1
            records_total := summary.records_total + entry.records }
        all_ok
    else
      pipeLoop exec rest (entries ++ [entry])
        { summary with sources_failed := summary.sources_failed + 1 }
        false

/-- Model of `run_pipeline` (`week1_ingestion/pipeline.py`).  `config` is the parsed
JSON config dict; `exec i` is the build+run outcome of the `i`-th source
entry (all fetch effects folded in).  The fatal pre-loop branch fires when
`config.get("sources") or []` is not a list or is empty, writes the manifest
once with `exit_code = 2` and returns; otherwise every source is attempted,
and the manifest is written exactly once at the end with
`exit_code = 0 if (all_ok or allow_partial) else 1`. -/
def run_pipeline (config : List (String × Json)) (allow_partial_override : Bool)
    (exec : Nat → SourceOutcome) : PipeOut :=
  let run_cfg := pyOrElse (config.lookup "run") (Json.obj [])
  let allow_partial :=
    jsonTruthy ((objGet run_cfg "allow_partial").getD (Json.bool false))
      || allow_partial_override
  let sources_cfg := pyOrElse (config.lookup "sources") (Json.arr [])
  match sources_cfg with
  | .arr (s₀ :: srest) =>
    let n := (s₀ :: srest).length
    let (entries, summary, all_ok) := pipeLoop exec (List.range n) [] ⟨0, 0, 0⟩ true
    let exit_code := if all_ok || allow_partial then 0 else 1
    { manifest_writes := [{ fatal_error := none, sources := entries, summary := summary
                            ok := all_ok, exit_code := exit_code }]
      attempted := n
      ok := all_ok
      exit_code := exit_code }
  | _ =>
    { manifest_writes := [{ fatal_error := some "config.sources must be a non-empty list"
                            sources := [], summary := ⟨0, 0, 0⟩, ok := false, exit_code := 2 }]
      attempted := 0
      ok := false
      exit_code := 2 }

/-- Model of `main` of `week1_ingestion/cli.py` for the `run` command.  `configLoad`
is the outcome of `json.loads(config_path.read_text(...))`: the CLI wraps it
in no `try`, so a missing config file or invalid JSON propagates as an
uncaught exception (`.error`) — `run_pipeline` is never entered and no
manifest is written on that path. -/
def cli_main (configLoad : Except String (List (String × Json)))
    (allow_partial_flag : Bool) (exec : Nat → SourceOutcome) : Except String PipeOut :=
  match configLoad with
  | .error e => .error e
  | .ok cfg => .ok (run_pipeline cfg allow_partial_flag exec)

/-! ## `scripts/demo_fetch.py` — `request_with_retries` -/

/-- Classified error codes of the demo fetch scripts (`FetchError.code`). -/
inductive FCode where
  | NETWORK_ERROR
  | AUTH_REQUIRED
  | UNEXPECTED_CONTENT_TYPE
  | HTTP_ERROR
  | PARSE_ERROR
  | SCHEMA_ERROR
deriving Repr, DecidableEq

/-- One attempt of `session.request` in `request_with_retries`: a response
with its status, or a `requests.Timeout`/`ConnectionError`. -/
inductive AttemptOutcome where
  | resp (status : Nat)
  | netExc
deriving Repr

/-- Result of `request_with_retries`: either the returned
`(response_status, retries_used)` or the raised `NETWORK_ERROR`, together
with the total request and backoff-sleep counts. -/
structure RwrOut where
  result : Except FCode (Nat × Nat)
  requests : Nat
  sleeps : Nat
deriving Repr

/-- Loop body of `request_with_retries` (`for attempt in range(0,
max_retries + 1)`).  `fuel` is the iterations still permitted; the wrapper
passes `max_retries + 1`, making the base case the post-loop
`raise FetchError(NETWORK_ERROR)` (unreachable in practice: the last
iteration always returns or breaks).  Key shape: a retryable status (429 or
5xx) at the *final* attempt falls through to `return resp, retries_used` —
it is returned, not raised. -/
def rwrGo (step : Nat → AttemptOutcome) (max_retries : Nat) :
    Nat → Nat → Nat → Nat → Nat → RwrOut
  | 0, _, _, requests, sleeps => ⟨.error .NETWORK_ERROR, requests, sleeps⟩
  | fuel + 1, attempt, retries_used, requests, sleeps =>
    match step attempt with
    | .resp status =>
      if (status = 429 ∨ (500 ≤ status ∧ status ≤ 599)) ∧ attempt < max_retries then
        rwrGo step max_retries fuel (attempt + 1) (retries_used + 1) (requests + 1) (sleeps + 1)
      else ⟨.ok (status, retries_used), requests + 1, sleeps⟩
    | .netExc =>
      if attempt < max_retries then
        rwrGo step max_retries fuel (attempt + 1) (retries_used + 1) (requests + 1) (sleeps + 1)
      else ⟨.error .NETWORK_ERROR, requests + 1, sleeps⟩

/-- Model of `request_with_retries` from `scripts/demo_fetch.py` (identical in the
archived copy): attempts are numbered `0 .. max_retries`. -/
def request_with_retries (step : Nat → AttemptOutcome) (max_retries : Nat) : RwrOut :=
  rwrGo step max_retries (max_retries + 1) 0 0 0 0

/-! ## Response classifier (`scripts/demo_fetch.py`)

Decoded response bodies and content-type headers are lists of characters;
the case-insensitive regex `(login|sign in|access denied)` is alternation
of literals, i.e. substring search on the lowercased snippet. -/

/-- Lowercase a character list (`.lower()`). -/
def lowerChars (s : List Char) : List Char := s.map Char.toLower

/-- Substring containment (`needle in hay` on Python strings/bytes). -/
def containsSub (needle : List Char) : List Char → Bool
  | [] => needle.isEmpty
  | c :: rest => needle.isPrefixOf (c :: rest) || containsSub needle rest

/-- Model of `detect_auth_required`: status 401/403, or a login/sign-in/access-denied
marker (case-insensitive) within the first 4000 characters of the body. -/
def detect_auth_required (status : Nat) (body : List Char) : Bool :=
  if status = 401 ∨ status = 403 then true
  else
    let snippet := lowerChars (body.take 4000)
    containsSub "login".toList snippet
      || containsSub "sign in".toList snippet
      || containsSub "access denied".toList snippet

/-- Model of `looks_like_html(content_type, body)`: the content-type mentions
`text/html`/`application/xhtml`, or the stripped 200-byte body prefix starts
with (or contains) an HTML document opener. -/
def looks_like_html (content_type : Option (List Char)) (body : List Char) : Bool :=
  let ct := lowerChars (content_type.getD [])
  if containsSub "text/html".toList ct || containsSub "application/xhtml".toList ct then true
  else
    let head := lowerChars ((body.dropWhile Char.isWhitespace).take 200)
    "<!doctype html".toList.isPrefixOf head
      || "<html".toList.isPrefixOf head
      || containsSub "<html".toList head

/-- World Bank schema check of `handler_worldbank_wgi`: the payload is a
list of length ≥ 2 whose second element is a list. -/
def wbSchemaOk : Json → Bool
  | .arr (_ :: .arr _ :: _) => true
  | _ => false

/-- The classify-then-parse prefix of `handler_worldbank_wgi`
(`scripts/demo_fetch.py`, lines 164–232), checks in source order:
auth detection, HTML sniffing, HTTP status, JSON parse (the parse outcome of
the body is the `parsed` parameter: `none` = `resp.json()` raised), then the
`[meta, data]` schema check.  On success the handler goes on to truncate
`payload[1]` to `limit` records (elided here: the claims stop at
classification). -/
def wbClassifyParse (status : Nat) (content_type : Option (List Char))
    (body : List Char) (parsed : Option Json) : Except FCode Json :=
  if detect_auth_required status body then .error .AUTH_REQUIRED
  else if looks_like_html content_type body then .error .UNEXPECTED_CONTENT_TYPE
  else if 400 ≤ status then .error .HTTP_ERROR
  else
    match parsed with
    | none => .error .PARSE_ERROR
    | some payload =>
      if wbSchemaOk payload then .ok payload else .error .SCHEMA_ERROR

/-! ## Paginated JSON handler
(`archive/week1_data_consumption_demo/scripts/demo_fetch.py`,
`handler_worldbank_wgi`) -/

/-- One page of the paginated stub, already past the auth/HTML/status/parse/
schema checks (the claim's stub always passes them): the page's
`[meta, data]` payload reduced to `meta.get("pages")` and the data list. -/
structure PageResp where
  meta_pages : Option Nat
  data : List Json
deriving Repr

/-- Observable outcome of the paginated handler. -/
structure WgiOut where
  collected : List Json
  records : List Json
  pages_fetched : Nat
  per_page : Nat
deriving Repr

/-- The `while len(collected) < limit` accumulation loop.  `fuel` only bounds
the recursion: the wrapper passes `limit + 1`, which is sufficient because
every iteration that recurses first appended a non-empty page, so after at
most `limit` recursing iterations the loop guard fails; the fuel-exhausted
base case is unreachable.  Stop conditions in source order: guard fails
(limit reached), empty page (`df.empty`), reported page count reached
(`page >= pages_int`). -/
def wgiGo (stub : Nat → PageResp) (limit : Nat) :
    Nat → Nat → List Json → Nat → List Json × Nat
  | 0, _, collected, fetched => (collected, fetched)
  | fuel + 1, page, collected, fetched =>
    if collected.length < limit then
      let resp := stub page
      if resp.data.isEmpty then (collected, fetched + 1)
      else
        let collected' := collected ++ resp.data
        match resp.meta_pages with
        | some pages =>
          if pages ≤ page then (collected', fetched + 1)
          else wgiGo stub limit fuel (page + 1) collected' (fetched + 1)
        | none => wgiGo stub limit fuel (page + 1) collected' (fetched + 1)
    else (collected, fetched)

/-- The pagination skeleton of the archived `handler_worldbank_wgi`:
`per_page = max(50, min(int(limit), 1000))`, pages numbered from 1, final
truncation `records = collected[:limit]`. -/
def handler_worldbank_wgi_paged (stub : Nat → PageResp) (limit : Nat) : WgiOut :=
  let per_page := max 50 (min limit 1000)
  let (collected, fetched) := wgiGo stub limit (limit + 1) 1 [] 0
  { collected := collected
    records := collected.take limit
    pages_fetched := fetched
    per_page := per_page }

/-! ## WMS capability handler
(`archive/week1_data_consumption_demo/scripts/demo_fetch.py`,
`handler_onegeology_wms`, parsed-document part) -/

mutual
/-- A parsed XML element (`xml.etree.ElementTree`): tag (possibly
`{namespace}Local`), text content, children in document order.  Attributes
are elided: the claims touch only tags and text. -/
inductive Xml where
  | elem (tag : String) (text : String) (children : XmlForest)

/-- Children list of an element (a separate inductive so that recursion over
documents stays structural). -/
inductive XmlForest where
  | nil
  | cons (head : Xml) (tail : XmlForest)
end

/-- Tag of an element. -/
def Xml.tag : Xml → String
  | .elem t _ _ => t

/-- Text of an element (`el.text or ""` handled at use sites by `trim`). -/
def Xml.text : Xml → String
  | .elem _ tx _ => tx

/-- Python's `.strip()`: drop leading and trailing whitespace. -/
def stripChars (s : List Char) : List Char :=
  ((s.dropWhile Char.isWhitespace).reverse.dropWhile Char.isWhitespace).reverse

/-- ElementTree's `{*}Name` wildcard matches on the local part of a tag:
everything after the final `}` (the whole tag when there is none). -/
def localName (tag : String) : List Char :=
  (tag.toList.reverse.takeWhile (fun c => c ≠ '}')).reverse

mutual
/-- Model of `root.findall(".//{*}name")`: all proper descendants with the given
local tag name, in document order. -/
def Xml.findAllLocal (name : String) : Xml → List Xml
  | .elem _ _ cs => XmlForest.findAllLocal name cs

/-- Helper for `findall` over a forest of subtrees. -/
def XmlForest.findAllLocal (name : String) : XmlForest → List Xml
  | .nil => []
  | .cons c rest =>
    (if localName c.tag = name.toList then [c] else [])
      ++ Xml.findAllLocal name c ++ XmlForest.findAllLocal name rest
end

/-- Model of `layer.find("{*}name")`: first *direct* child with the local tag name. -/
def Xml.childFind (x : Xml) (name : String) : Option Xml :=
  match x with
  | .elem _ _ cs => go cs
where
  go : XmlForest → Option Xml
    | .nil => none
    | .cons c rest => if localName c.tag = name.toList then some c else go rest

/-- One extracted WMS layer record.  The archived handler also extracts
abstract, CRS list, bounding boxes and the geographic bounding box; those
fields are elided as the claims observe only the name/title skip rule and
the schema gate. -/
structure LayerRec where
  layer_name : Option String
  title : Option String
deriving Repr, DecidableEq

/-- The per-layer extraction loop: skip layers with neither name nor title,
`records.append(...)`, `if len(records) >= limit: break`. -/
def collectLayers (limit : Nat) : List Xml → List LayerRec → List LayerRec
  | [], acc => acc
  | l :: ls, acc =>
    let name := String.mk (match l.childFind "Name" with
      | some e => stripChars e.text.toList
      | none => [])
    let title := String.mk (match l.childFind "Title" with
      | some e => stripChars e.text.toList
      | none => [])
    if name = "" ∧ title = "" then collectLayers limit ls acc
    else
      let acc' := acc ++ [{ layer_name := if name = "" then none else some name
                            title := if title = "" then none else some title }]
      if limit ≤ acc'.length then acc' else collectLayers limit ls acc'

/-- The parsed-document part of `handler_onegeology_wms`: the schema gate
`if not ("wms_capabilities" in tag_lower or cap is not None)` (with
`cap = root.find(".//{*}Capability")`) followed by layer extraction. -/
def handler_onegeology_parse (root : Xml) (limit : Nat) : Except FCode (List LayerRec) :=
  let tag_lower := lowerChars root.tag.toList
  let capFound := !(Xml.findAllLocal "Capability" root).isEmpty
  if !(containsSub "wms_capabilities".toList tag_lower || capFound) then
    .error .SCHEMA_ERROR
  else
    .ok (collectLayers limit (Xml.findAllLocal "Layer" root) [])

/-! ## Helper lemmas -/

/-- Scalar payloads: everything that is neither a list nor a dict. -/
def Json.isScalar : Json → Bool
  | .arr _ => false
  | .obj _ => false
  | _ => true

theorem dictInsert_of_not_mem (init : List (String × Json)) (k : String) (v : Json)
    (hk : k ∉ init.map Prod.fst) : dictInsert init k v = init ++ [(k, v)] := by
  induction init with
  | nil => rfl
  | cons kv rest ih =>
    obtain ⟨k', v'⟩ := kv
    simp only [List.map_cons, List.mem_cons] at hk
    push_neg at hk
    simp only [dictInsert]
    rw [if_neg (fun h => hk.1 h.symm), ih hk.2]
    simp

theorem foldl_dictInsert_append (f : String × List Json → Json) :
    ∀ (vls : List (String × List Json)) (init : List (String × Json)),
    (vls.map Prod.fst).Nodup →
    (∀ k ∈ vls.map Prod.fst, k ∉ init.map Prod.fst) →
    vls.foldl (fun rec kv => dictInsert rec kv.1 (f kv)) init
      = init ++ vls.map (fun kv => (kv.1, f kv))
  | [], init, _, _ => by simp
  | kv :: rest, init, hnodup, hdisj => by
    simp only [List.map_cons, List.nodup_cons] at hnodup
    simp only [List.foldl_cons]
    rw [dictInsert_of_not_mem init kv.1 (f kv) (hdisj kv.1 (by simp))]
    rw [foldl_dictInsert_append f rest (init ++ [(kv.1, f kv)]) hnodup.2 ?_]
    · simp
    · intro k hkmem hmem
      have hk1 : k ∈ List.map Prod.fst (kv :: rest) := by
        simp only [List.map_cons, List.mem_cons]
        exact Or.inr hkmem
      simp only [List.map_append, List.mem_append, List.map_cons, List.map_nil,
        List.mem_singleton] at hmem
      rcases hmem with hin | hkk
      · exact hdisj k hk1 hin
      · exact hnodup.1 (hkk ▸ hkmem)

/-! ## Claim theorems -/

/-- Claim C6: without a `record_path` extraction config, `normalize_to_records`
maps a list payload elementwise (dicts kept, scalars wrapped as
`{"value": e}`), turns a dict payload into the one-element list `[payload]`,
wraps any scalar payload as `[{"value": payload}]`, and is the identity on
lists of dicts — in particular on `[{"a":1},{"a":2}]` and `{"x":1}`. -/
theorem claim_C6 :
    (∀ (cfg : Option ExtractCfg) (payload : Json), noRecordPath cfg = true →
        normalize_to_records payload cfg = normalize_to_records payload none) ∧
    (∀ items : List Json, normalize_to_records (.arr items) none
        = .ok (items.map (fun item =>
            match item with
            | .obj fields => Json.obj fields
            | other => Json.obj [("value", other)]))) ∧
    (∀ fields : List (String × Json),
        normalize_to_records (.obj fields) none = .ok [.obj fields]) ∧
    (∀ payload : Json, payload.isScalar = true →
        normalize_to_records payload none = .ok [.obj [("value", payload)]]) ∧
    normalize_to_records (.arr [.obj [("a", .num 1)], .obj [("a", .num 2)]]) none
      = .ok [.obj [("a", .num 1)], .obj [("a", .num 2)]] ∧
    normalize_to_records (.obj [("x", .num 1)]) none = .ok [.obj [("x", .num 1)]] := by
  refine ⟨?_, ?_, fun _ => rfl, ?_, rfl, rfl⟩
  · intro cfg payload h
    match cfg with
    | none => rfl
    | some ⟨none, vps⟩ => rfl
    | some ⟨some rp, vps⟩ =>
      have hrp : rp = "" := by
        simpa [noRecordPath] using h
      subst hrp
      simp [normalize_to_records]
  · intro items
    rfl
  · intro payload h
    cases payload <;> first | rfl | simp [Json.isScalar] at h

/-- Claim C6 witness: the scalar and no-record-path clauses at concrete
inputs. -/
theorem claim_C6_witness :
    normalize_to_records (.num 5) none = .ok [.obj [("value", .num 5)]] ∧
    normalize_to_records (.str "q") (some ⟨some "", [("k", "p")]⟩)
      = normalize_to_records (.str "q") none :=
  ⟨claim_C6.2.2.2.1 (.num 5) rfl, claim_C6.1 (some ⟨some "", [("k", "p")]⟩) (.str "q") rfl⟩

/-- Claim C5: with a `record_path` that resolves to a list `base` of length
`n` and `value_paths` that all resolve to lists, `normalize_to_records`
raises (`ValueError`) as soon as any value list's length differs from `n`
(no truncated output can exist since the error replaces the result), and
otherwise returns exactly `n` records, record `i` being
`{_index: i, value: base[i], <name>: value_lists[name][i], ...}`.
(The value-path names are assumed pairwise distinct — they are keys of one
Python dict — and distinct from the fixed keys `_index`/`value`, which the
claim's record notation presupposes.) -/
theorem claim_C5 (payload : Json) (rp : String) (vps : List (String × String))
    (base : List Json) (vls : List (String × List Json))
    (hrp : rp ≠ "")
    (hbase : getByDottedPath payload rp = some (.arr base))
    (hvls : resolveValuePaths payload vps = .ok vls)
    (hnodup : (vls.map Prod.fst).Nodup)
    (hidx : "_index" ∉ vls.map Prod.fst)
    (hval : "value" ∉ vls.map Prod.fst) :
    ((∃ kv ∈ vls, kv.2.length ≠ base.length) →
        ∃ msg, normalize_to_records payload (some ⟨some rp, vps⟩) = .error msg) ∧
    ((∀ kv ∈ vls, kv.2.length = base.length) →
        normalize_to_records payload (some ⟨some rp, vps⟩)
          = .ok ((List.range base.length).map (fun i =>
              Json.obj (("_index", Json.num (Int.ofNat i))
                :: ("value", base.getD i Json.null)
                :: vls.map (fun kv => (kv.1, kv.2.getD i Json.null)))))) := by
  constructor
  · rintro ⟨kv, hmem, hlen⟩
    have hfind : (vls.find? (fun kv => kv.2.length ≠ base.length)).isSome := by
      rw [List.find?_isSome]
      exact ⟨kv, hmem, by simpa using hlen⟩
    obtain ⟨kv', hkv'⟩ := Option.isSome_iff_exists.mp hfind
    simp only [normalize_to_records, if_neg hrp, hbase, hvls, hkv']
    exact ⟨_, rfl⟩
  · intro hall
    have hfind : vls.find? (fun kv => kv.2.length ≠ base.length) = none := by
      rw [List.find?_eq_none]
      intro kv hmem
      simpa using hall kv hmem
    simp only [normalize_to_records, if_neg hrp, hbase, hvls, hfind]
    congr 1
    apply List.map_congr_left
    intro i _
    congr 1
    rw [foldl_dictInsert_append (fun kv => kv.2.getD i Json.null) vls _ hnodup ?_]
    · simp
    · intro k hk hkinit
      simp only [List.map_cons, List.map_nil, List.mem_cons, List.mem_singleton,
        List.not_mem_nil] at hkinit
      rcases hkinit with h1 | h2 | h3
      · exact hidx (h1 ▸ hk)
      · exact hval (h2 ▸ hk)
      · exact h3

/-- Claim C5 witness: both branches at a concrete payload. -/
theorem claim_C5_witness :
    normalize_to_records
        (.obj [("d", .obj [("b", .arr [.num 1, .num 2]), ("v", .arr [.str "x", .str "y"])])])
        (some ⟨some "d.b", [("name", "d.v")]⟩)
      = .ok [.obj [("_index", .num 0), ("value", .num 1), ("name", .str "x")],
             .obj [("_index", .num 1), ("value", .num 2), ("name", .str "y")]] ∧
    ∃ msg, normalize_to_records
        (.obj [("d", .obj [("b", .arr [.num 1, .num 2]), ("v", .arr [.str "x"])])])
        (some ⟨some "d.b", [("name", "d.v")]⟩)
      = .error msg := by
  constructor
  · have h := (claim_C5
      (.obj [("d", .obj [("b", .arr [.num 1, .num 2]), ("v", .arr [.str "x", .str "y"])])])
      "d.b" [("name", "d.v")] [.num 1, .num 2] [("name", [.str "x", .str "y"])]
      (by decide) rfl rfl (by simp) (by simp) (by simp)).2
      (by intro kv hmem; simp at hmem; simp [hmem])
    rw [h]
    rfl
  · exact (claim_C5
      (.obj [("d", .obj [("b", .arr [.num 1, .num 2]), ("v", .arr [.str "x"])])])
      "d.b" [("name", "d.v")] [.num 1, .num 2] [("name", [.str "x"])]
      (by decide) rfl rfl (by simp) (by simp) (by simp)).1
      ⟨("name", [.str "x"]), by simp, by simp⟩

/-- Claim C10: every `run()` of `HttpJsonSource`, `FileJsonSource` and
`FileCsvSource` returns a `SourceResult` (never raises), and in every
returned result `ok = true` holds iff `records` is non-`None` iff `error`
is `None`. -/
theorem claim_C10 :
    (∀ (sid : String) (step : Nat → HttpAttempt) (mr : Nat)
        (cfg : Option ExtractCfg) (t : Nat),
      let r := HttpJsonSource.run sid step mr cfg t
      (r.ok = true ↔ r.records.isSome = true) ∧ (r.ok = true ↔ r.error = none)) ∧
    (∀ (sid : String) (loaded : Except String Json) (cfg : Option ExtractCfg) (t : Nat),
      let r := FileJsonSource.run sid loaded cfg t
      (r.ok = true ↔ r.records.isSome = true) ∧ (r.ok = true ↔ r.error = none)) ∧
    (∀ (sid : String) (readRows : Except String (List Json)) (t : Nat),
      let r := FileCsvSource.run sid readRows t
      (r.ok = true ↔ r.records.isSome = true) ∧ (r.ok = true ↔ r.error = none)) := by
  refine ⟨?_, ?_, ?_⟩
  · intro sid step mr cfg t
    unfold HttpJsonSource.run
    cases (fetch_with_retries step mr).result with
    | error msg => simp
    | ok payload =>
      cases hn : normalize_to_records payload cfg with
      | ok records => simp [hn]
      | error msg => simp [hn]
  · intro sid loaded cfg t
    unfold FileJsonSource.run
    cases loaded with
    | error msg => simp
    | ok payload =>
      cases hn : normalize_to_records payload cfg with
      | ok records => simp [hn]
      | error msg => simp [hn]
  · intro sid readRows t
    unfold FileCsvSource.run
    cases readRows with
    | error msg => simp
    | ok rows => simp

/-- An always-5xx server: the demo retry loop retries `mr` times and then
*returns* the last 5xx response (it does not raise). -/
theorem rwrGo_all5xx (step : Nat → AttemptOutcome) (mr : Nat)
    (hstep : ∀ i, i ≤ mr → ∃ s, step i = .resp s ∧ 500 ≤ s ∧ s ≤ 599) :
    ∀ fuel attempt retries reqs sleeps, attempt + fuel = mr + 1 → 0 < fuel →
    ∃ s, step mr = .resp s ∧
      rwrGo step mr fuel attempt retries reqs sleeps
        = ⟨.ok (s, retries + (fuel - 1)), reqs + fuel, sleeps + (fuel - 1)⟩ := by
  intro fuel
  induction fuel with
  | zero => intro _ _ _ _ _ h0; omega
  | succ f ih =>
    intro attempt retries reqs sleeps hsum _
    obtain ⟨s, hs, h5, h9⟩ := hstep attempt (by omega)
    by_cases hf : f = 0
    · subst hf
      have ha : attempt = mr := by omega
      subst ha
      refine ⟨s, hs, ?_⟩
      simp only [rwrGo, hs]
      rw [if_neg (by rintro ⟨_, hlt⟩; omega)]
      simp
    · obtain ⟨s', hs', hres⟩ :=
        ih (attempt + 1) (retries + 1) (reqs + 1) (sleeps + 1) (by omega) (by omega)
      refine ⟨s', hs', ?_⟩
      simp only [rwrGo, hs]
      rw [if_pos ⟨Or.inr ⟨h5, h9⟩, by omega⟩, hres]
      simp only [RwrOut.mk.injEq, Except.ok.injEq, Prod.mk.injEq]
      refine ⟨⟨trivial, by omega⟩, by omega, by omega⟩

/-- An always-timeout/connection-error server: the demo retry loop retries
`mr` times and then raises `NETWORK_ERROR`. -/
theorem rwrGo_allNetExc (step : Nat → AttemptOutcome) (mr : Nat)
    (hstep : ∀ i, i ≤ mr → step i = .netExc) :
    ∀ fuel attempt retries reqs sleeps, attempt + fuel = mr + 1 → 0 < fuel →
    rwrGo step mr fuel attempt retries reqs sleeps
      = ⟨.error .NETWORK_ERROR, reqs + fuel, sleeps + (fuel - 1)⟩ := by
  intro fuel
  induction fuel with
  | zero => intro _ _ _ _ _ h0; omega
  | succ f ih =>
    intro attempt retries reqs sleeps hsum _
    have hs := hstep attempt (by omega)
    by_cases hf : f = 0
    · subst hf
      have ha : attempt = mr := by omega
      subst ha
      simp only [rwrGo, hs]
      rw [if_neg (by omega)]
      simp
    · have hres := ih (attempt + 1) (retries + 1) (reqs + 1) (sleeps + 1) (by omega) (by omega)
      simp only [rwrGo, hs]
      rw [if_pos (by omega), hres]
      simp only [RwrOut.mk.injEq]
      refine ⟨trivial, by omega, by omega⟩

/-- Claim C2 counterexample: against an always-HTTP-500 server with
`max_retries = 4`, `request_with_retries` makes 5 requests but then
*returns* the final 500 response with `retries_used = 4` — it does not
raise `NETWORK_ERROR` (the claim asserts it raises). -/
theorem claim_C2_counterexample :
    request_with_retries (fun _ => .resp 500) 4 = ⟨.ok (500, 4), 5, 4⟩ ∧
    (request_with_retries (fun _ => .resp 500) 4).result ≠ .error .NETWORK_ERROR := by
  refine ⟨rfl, ?_⟩
  intro h
  rw [show (request_with_retries (fun _ => .resp 500) 4).result
        = .ok (500, 4) from rfl] at h
  exact Except.noConfusion h

/-- Claim C2 (amended): with `max_retries = 4` against a server answering
every attempt with a 5xx status, the executor performs exactly 5 total
requests (4 backoff sleeps) and then *returns* the final 5xx response with
`retries_used = 4` — classified downstream (`HTTP_ERROR`), not raised;
`NETWORK_ERROR` is raised after exactly 5 total requests only when every
attempt fails with a timeout/connection error. -/
theorem claim_C2 :
    (∀ step : Nat → AttemptOutcome,
      (∀ i, i ≤ 4 → ∃ s, step i = .resp s ∧ 500 ≤ s ∧ s ≤ 599) →
      (request_with_retries step 4).requests = 5 ∧
      (request_with_retries step 4).sleeps = 4 ∧
      ∃ s, step 4 = .resp s ∧ (request_with_retries step 4).result = .ok (s, 4)) ∧
    (∀ step : Nat → AttemptOutcome,
      (∀ i, i ≤ 4 → step i = .netExc) →
      request_with_retries step 4 = ⟨.error .NETWORK_ERROR, 5, 4⟩) := by
  constructor
  · intro step hstep
    obtain ⟨s, hs, hres⟩ := rwrGo_all5xx step 4 hstep (4 + 1) 0 0 0 0 (by omega) (by omega)
    unfold request_with_retries
    rw [hres]
    exact ⟨rfl, rfl, s, hs, rfl⟩
  · intro step hstep
    have hres := rwrGo_allNetExc step 4 hstep (4 + 1) 0 0 0 0 (by omega) (by omega)
    unfold request_with_retries
    rw [hres]

/-- Claim C2 witness: both amended branches at concrete servers. -/
theorem claim_C2_witness :
    (request_with_retries (fun _ => .resp 503) 4).requests = 5 ∧
    request_with_retries (fun _ => .netExc) 4 = ⟨.error .NETWORK_ERROR, 5, 4⟩ :=
  ⟨(claim_C2.1 (fun _ => .resp 503) (fun i _ => ⟨503, rfl, by omega, by omega⟩)).1,
   claim_C2.2 (fun _ => .netExc) (fun _ _ => rfl)⟩

/-- A server whose every attempt returns the same HTTP-error status:
`HttpJsonSource._fetch_with_retries` keeps retrying until `max_retries`
total attempts, then raises the `HTTPError`. -/
theorem httpFetchGo_allHttpErr (step : Nat → HttpAttempt) (mr s : Nat)
    (hs400 : 400 ≤ s) (hstep : ∀ i, 1 ≤ i → i ≤ mr → ∃ b, step i = .resp s b) :
    ∀ fuel attempt attempts sleeps last, attempt + fuel = mr + 1 → 0 < fuel → 1 ≤ attempt →
    httpFetchGo step mr fuel attempt attempts sleeps last
      = ⟨.error ("HTTPError " ++ toString s), attempts + fuel, sleeps + (fuel - 1)⟩ := by
  intro fuel
  induction fuel with
  | zero => intro _ _ _ _ _ h0; omega
  | succ f ih =>
    intro attempt attempts sleeps last hsum _ h1
    obtain ⟨b, hb⟩ := hstep attempt h1 (by omega)
    by_cases hf : f = 0
    · subst hf
      have ha : attempt = mr := by omega
      subst ha
      simp only [httpFetchGo, hb]
      rw [if_pos hs400, if_neg (by omega)]
      simp
    · have hres := ih (attempt + 1) (attempts + 1) (sleeps + 1)
        (some ("HTTPError " ++ toString s)) (by omega) (by omega) (by omega)
      simp only [httpFetchGo, hb]
      rw [if_pos hs400, if_pos (by omega), hres]
      simp only [HttpFetchOut.mk.injEq]
      refine ⟨trivial, by omega, by omega⟩

/-- Claim C3 counterexample: a server that always answers 404 (a 4xx other
than 429).  The pipeline's `HttpJsonSource._fetch_with_retries` with
`max_retries = 3` performs 3 requests with 2 backoff sleeps — it retries on
plain 4xx (the claim asserts a single attempt with no retry and no sleep in
both executors). -/
theorem claim_C3_counterexample :
    fetch_with_retries (fun _ => .resp 404 none) 3
      = ⟨.error "HTTPError 404", 3, 2⟩ ∧
    (fetch_with_retries (fun _ => .resp 404 none) 3).attempts ≠ 1 := by
  exact ⟨rfl, by intro h; rw [show (fetch_with_retries (fun _ => .resp 404 none) 3).attempts
    = 3 from rfl] at h; omega⟩

/-- Claim C3 (amended): on a response whose status is a 4xx other than 429,
the demo executor `request_with_retries` performs no retry and no backoff
sleep — exactly one request, whose response is returned for downstream
classification; but the pipeline's `HttpJsonSource._fetch_with_retries`
retries every failed attempt, 4xx HTTP errors included, performing
`max_retries` total requests with `max_retries - 1` sleeps before raising
the `HTTPError`. -/
theorem claim_C3 :
    (∀ (step : Nat → AttemptOutcome) (mr s : Nat),
      step 0 = .resp s → 400 ≤ s → s ≤ 499 → s ≠ 429 →
      request_with_retries step mr = ⟨.ok (s, 0), 1, 0⟩) ∧
    (∀ (step : Nat → HttpAttempt) (mr s : Nat), 1 ≤ mr → 400 ≤ s → s ≤ 499 → s ≠ 429 →
      (∀ i, 1 ≤ i → i ≤ mr → ∃ b, step i = .resp s b) →
      fetch_with_retries step mr
        = ⟨.error ("HTTPError " ++ toString s), mr, mr - 1⟩) := by
  constructor
  · intro step mr s hs h4 h9 hne
    unfold request_with_retries
    simp only [rwrGo, hs]
    rw [if_neg (by rintro ⟨h429 | ⟨h5, _⟩, _⟩; exact hne h429; omega)]
  · intro step mr s hmr h4 _ _ hstep
    unfold fetch_with_retries
    rw [httpFetchGo_allHttpErr step mr s h4 hstep mr 1 0 0 none (by omega) (by omega) (by omega)]
    simp

/-- Claim C3 witness: both branches at concrete servers with status 404. -/
theorem claim_C3_witness :
    request_with_retries (fun _ => .resp 404) 4 = ⟨.ok (404, 0), 1, 0⟩ ∧
    fetch_with_retries (fun _ => .resp 404 none) 3 = ⟨.error "HTTPError 404", 3, 2⟩ :=
  ⟨claim_C3.1 (fun _ => .resp 404) 4 404 rfl (by omega) (by omega) (by omega),
   claim_C3.2 (fun _ => .resp 404 none) 3 404 (by omega) (by omega) (by omega) (by omega)
     (fun i _ _ => ⟨none, rfl⟩)⟩

/-- Claim C7 counterexample: a 200 response with `Content-Type: text/html`
whose HTML body contains the word "login" (and whose body even parses as
JSON) is classified `AUTH_REQUIRED` — not `UNEXPECTED_CONTENT_TYPE` as the
claim asserts — because `detect_auth_required` runs before
`looks_like_html`. -/
theorem claim_C7_counterexample :
    wbClassifyParse 200 (some "text/html".toList) "<html>please login</html>".toList
        (some (.arr [.obj [], .arr []]))
      = .error .AUTH_REQUIRED ∧
    wbClassifyParse 200 (some "text/html".toList) "<html>please login</html>".toList
        (some (.arr [.obj [], .arr []]))
      ≠ .error .UNEXPECTED_CONTENT_TYPE := by
  refine ⟨rfl, ?_⟩
  intro h
  rw [show wbClassifyParse 200 (some "text/html".toList) "<html>please login</html>".toList
        (some (.arr [.obj [], .arr []]))
      = .error .AUTH_REQUIRED from rfl] at h
  injection h with h'
  exact FCode.noConfusion h'

/-- Claim C7 (amended): for every 200 response that looks like HTML (by
content-type or body prefix), the handler classifies it before any
format-specific parsing as `AUTH_REQUIRED` when the auth-wall detector fires
(login/sign-in/access-denied markers — status 401/403 is excluded at 200),
and as `UNEXPECTED_CONTENT_TYPE` otherwise; it is never `PARSE_ERROR`, even
when the body would parse. -/
theorem claim_C7 (status : Nat) (ct : Option (List Char)) (body : List Char)
    (parsed : Option Json) (hstatus : status = 200)
    (hhtml : looks_like_html ct body = true) :
    wbClassifyParse status ct body parsed
      = .error (if detect_auth_required status body then .AUTH_REQUIRED
                else .UNEXPECTED_CONTENT_TYPE) ∧
    wbClassifyParse status ct body parsed ≠ .error .PARSE_ERROR := by
  subst hstatus
  by_cases hauth : detect_auth_required 200 body
  · constructor
    · simp [wbClassifyParse, hauth]
    · simp [wbClassifyParse, hauth]
  · constructor
    · simp [wbClassifyParse, hauth, hhtml]
    · simp [wbClassifyParse, hauth, hhtml]

/-- Claim C7 witness: a 200 `text/html` response with no auth markers whose
body parses as JSON is `UNEXPECTED_CONTENT_TYPE` and not `PARSE_ERROR`. -/
theorem claim_C7_witness :
    wbClassifyParse 200 (some "text/html".toList) "<html><body>data</body></html>".toList
        (some (.arr [.obj [], .arr []]))
      = .error .UNEXPECTED_CONTENT_TYPE ∧
    wbClassifyParse 200 (some "text/html".toList) "<html><body>data</body></html>".toList
        (some (.arr [.obj [], .arr []]))
      ≠ .error .PARSE_ERROR := by
  have h := claim_C7 200 (some "text/html".toList) "<html><body>data</body></html>".toList
    (some (.arr [.obj [], .arr []])) rfl rfl
  refine ⟨?_, h.2⟩
  rw [h.1]
  rfl

/-- Pagination loop, stop case: the guard `len(collected) < limit` fails. -/
theorem wgiGo_stop (stub : Nat → PageResp) (limit fuel page : Nat)
    (collected : List Json) (fetched : Nat) (hfuel : fuel ≠ 0)
    (hguard : ¬ collected.length < limit) :
    wgiGo stub limit fuel page collected fetched = (collected, fetched) := by
  cases fuel with
  | zero => exact absurd rfl hfuel
  | succ f =>
    simp only [wgiGo]
    rw [if_neg hguard]

/-- Pagination loop, empty-page case: a page returning zero records stops
the loop at once (`if df.empty: break`), regardless of `limit` and of the
reported page count, which is only consulted after non-empty pages. -/
theorem wgiGo_empty (stub : Nat → PageResp) (limit fuel page : Nat)
    (collected : List Json) (fetched : Nat) (hfuel : fuel ≠ 0)
    (hguard : collected.length < limit) (hdata : (stub page).data = []) :
    wgiGo stub limit fuel page collected fetched = (collected, fetched + 1) := by
  cases fuel with
  | zero => exact absurd rfl hfuel
  | succ f =>
    simp only [wgiGo]
    rw [if_pos hguard, hdata]
    simp

/-- Pagination loop, final-page case: a non-empty page whose reported page
count is already reached appends its data and stops. -/
theorem wgiGo_last (stub : Nat → PageResp) (limit fuel page : Nat)
    (collected : List Json) (fetched P : Nat) (d : Json) (t : List Json)
    (hfuel : fuel ≠ 0) (hguard : collected.length < limit)
    (hmeta : (stub page).meta_pages = some P) (hdata : (stub page).data = d :: t)
    (hP : P ≤ page) :
    wgiGo stub limit fuel page collected fetched = (collected ++ d :: t, fetched + 1) := by
  cases fuel with
  | zero => exact absurd rfl hfuel
  | succ f =>
    simp only [wgiGo]
    rw [if_pos hguard, hdata, hmeta]
    simp only [List.isEmpty_cons, Bool.false_eq_true, if_false]
    rw [if_pos hP]

/-- Pagination loop, next-page case: a non-empty page below the reported
page count appends its data and recurses on the next page number. -/
theorem wgiGo_next (stub : Nat → PageResp) (limit fuel page : Nat)
    (collected : List Json) (fetched P : Nat) (d : Json) (t : List Json)
    (hfuel : fuel ≠ 0) (hguard : collected.length < limit)
    (hmeta : (stub page).meta_pages = some P) (hdata : (stub page).data = d :: t)
    (hP : ¬ P ≤ page) :
    wgiGo stub limit fuel page collected fetched
      = wgiGo stub limit (fuel - 1) (page + 1) (collected ++ d :: t) (fetched + 1) := by
  cases fuel with
  | zero => exact absurd rfl hfuel
  | succ f =>
    simp only [wgiGo]
    rw [if_pos hguard, hdata, hmeta]
    simp only [List.isEmpty_cons, Bool.false_eq_true, if_false]
    rw [if_neg hP]
    simp

/-- Claim C4: the paginated handler stops at the first of limit reached,
empty page, or reported total-pages count reached, with the page size
clamped to `[50, 1000]`.  Conjunct 1: the clamp.  Conjunct 2: against a stub
whose pages 1–3 all report `pages = 3` and return non-empty data, it
requests exactly 3 pages whenever the first two pages leave the accumulated
count below `limit` (in particular whenever `limit` exceeds all available
records), and exactly 2 pages when `limit` is reached after page 2.
Conjunct 3: a page returning zero records stops accumulation at that page —
an empty first page means one request and no records, and an empty page 2
stops after 2 requests even though the limit is not reached and the
reported page count `P > 1` is not reached either. -/
theorem claim_C4 (stub : Nat → PageResp) (limit : Nat) :
    (50 ≤ (handler_worldbank_wgi_paged stub limit).per_page ∧
      (handler_worldbank_wgi_paged stub limit).per_page ≤ 1000) ∧
    ((∀ p, 1 ≤ p → p ≤ 3 → (stub p).meta_pages = some 3 ∧ (stub p).data ≠ []) →
      ((stub 1).data.length + (stub 2).data.length < limit →
        (handler_worldbank_wgi_paged stub limit).pages_fetched = 3) ∧
      ((stub 1).data.length < limit → limit ≤ (stub 1).data.length + (stub 2).data.length →
        (handler_worldbank_wgi_paged stub limit).pages_fetched = 2)) ∧
    ((0 < limit → (stub 1).data = [] →
      (handler_worldbank_wgi_paged stub limit).pages_fetched = 1 ∧
      (handler_worldbank_wgi_paged stub limit).collected = []) ∧
     (∀ P, (stub 1).meta_pages = some P → 1 < P →
      (stub 1).data ≠ [] → (stub 1).data.length < limit → (stub 2).data = [] →
      (handler_worldbank_wgi_paged stub limit).pages_fetched = 2 ∧
      (handler_worldbank_wgi_paged stub limit).collected = (stub 1).data)) := by
  rcases hw : wgiGo stub limit (limit + 1) 1 [] 0 with ⟨coll, fetched⟩
  have hout : handler_worldbank_wgi_paged stub limit
      = { collected := coll, records := coll.take limit
          pages_fetched := fetched, per_page := max 50 (min limit 1000) } := by
    unfold handler_worldbank_wgi_paged
    rw [hw]
  refine ⟨?_, ?_, ?_, ?_⟩
  · rw [hout]
    constructor
    · exact Nat.le_max_left _ _
    · exact Nat.max_le.mpr ⟨by omega, Nat.min_le_right _ _⟩
  · intro hp
    obtain ⟨h1m, h1ne⟩ := hp 1 (by omega) (by omega)
    obtain ⟨h2m, h2ne⟩ := hp 2 (by omega) (by omega)
    obtain ⟨h3m, h3ne⟩ := hp 3 (by omega) (by omega)
    obtain ⟨d1, t1, hd1⟩ := List.exists_cons_of_ne_nil h1ne
    obtain ⟨d2, t2, hd2⟩ := List.exists_cons_of_ne_nil h2ne
    obtain ⟨d3, t3, hd3⟩ := List.exists_cons_of_ne_nil h3ne
    have hl1 : (stub 1).data.length = t1.length + 1 := by rw [hd1]; simp
    have hl2 : (stub 2).data.length = t2.length + 1 := by rw [hd2]; simp
    constructor
    · intro hA
      have hlim : 2 < limit := by omega
      rw [wgiGo_next stub limit (limit + 1) 1 [] 0 3 d1 t1 (by omega)
            (by simp; omega) h1m hd1 (by omega)] at hw
      simp only [Nat.add_sub_cancel, List.nil_append, Nat.zero_add] at hw
      rw [wgiGo_next stub limit limit 2 (d1 :: t1) 1 3 d2 t2 (by omega)
            (by simp; omega) h2m hd2 (by omega)] at hw
      rw [wgiGo_last stub limit (limit - 1) 3 (d1 :: t1 ++ d2 :: t2) 2 3 d3 t3
            (by omega) (by simp; omega) h3m hd3 (by omega)] at hw
      rw [hout]
      show fetched = 3
      simp only [Prod.mk.injEq] at hw
      omega
    · intro hB1 hB2
      have hlim : 1 < limit := by omega
      rw [wgiGo_next stub limit (limit + 1) 1 [] 0 3 d1 t1 (by omega)
            (by simp; omega) h1m hd1 (by omega)] at hw
      simp only [Nat.add_sub_cancel, List.nil_append, Nat.zero_add] at hw
      rw [wgiGo_next stub limit limit 2 (d1 :: t1) 1 3 d2 t2 (by omega)
            (by simp; omega) h2m hd2 (by omega)] at hw
      rw [wgiGo_stop stub limit (limit - 1) 3 (d1 :: t1 ++ d2 :: t2) 2
            (by omega) (by simp; omega)] at hw
      rw [hout]
      show fetched = 2
      simp only [Prod.mk.injEq] at hw
      omega
  · intro hlim hempty
    rw [wgiGo_empty stub limit (limit + 1) 1 [] 0 (by omega)
          (by simpa using hlim) hempty] at hw
    rw [hout]
    simp only [Prod.mk.injEq] at hw
    refine ⟨?_, ?_⟩
    · show fetched = 1
      omega
    · show coll = []
      exact hw.1.symm
  · intro P h1m h1P h1ne hlen h2empty
    obtain ⟨d1, t1, hd1⟩ := List.exists_cons_of_ne_nil h1ne
    have hl1 : (stub 1).data.length = t1.length + 1 := by rw [hd1]; simp
    have hlim : 1 < limit := by omega
    rw [wgiGo_next stub limit (limit + 1) 1 [] 0 P d1 t1 (by omega)
          (by simp; omega) h1m hd1 (by omega)] at hw
    simp only [Nat.add_sub_cancel, List.nil_append, Nat.zero_add] at hw
    rw [wgiGo_empty stub limit limit 2 (d1 :: t1) 1 (by omega)
          (by simp; omega) h2empty] at hw
    rw [hout]
    simp only [Prod.mk.injEq] at hw
    refine ⟨?_, ?_⟩
    · show fetched = 2
      omega
    · show coll = (stub 1).data
      rw [hd1]
      exact hw.1.symm

/-- Claim C4 witness: a concrete 3-page stub — 3 pages with a large limit,
2 pages when the limit is met on page 2, the clamped page size, one request
against an empty first page, and 2 requests when page 2 is empty with the
limit and the reported page count both unreached. -/
theorem claim_C4_witness :
    (handler_worldbank_wgi_paged (fun _ => ⟨some 3, [.num 1, .num 2]⟩) 100).pages_fetched = 3 ∧
    (handler_worldbank_wgi_paged (fun _ => ⟨some 3, [.num 1, .num 2]⟩) 3).pages_fetched = 2 ∧
    50 ≤ (handler_worldbank_wgi_paged (fun _ => ⟨some 3, [.num 1, .num 2]⟩) 100).per_page ∧
    (handler_worldbank_wgi_paged (fun _ => ⟨some 3, []⟩) 100).pages_fetched = 1 ∧
    (handler_worldbank_wgi_paged
        (fun p => if p = 1 then ⟨some 3, [.num 7]⟩ else ⟨some 3, []⟩) 100).pages_fetched = 2 := by
  refine ⟨?_, ?_, ?_, ?_, ?_⟩
  · exact ((claim_C4 (fun _ => ⟨some 3, [.num 1, .num 2]⟩) 100).2.1
      (fun p _ _ => ⟨rfl, by simp⟩)).1 (by simp)
  · exact ((claim_C4 (fun _ => ⟨some 3, [.num 1, .num 2]⟩) 3).2.1
      (fun p _ _ => ⟨rfl, by simp⟩)).2 (by simp) (by simp)
  · exact (claim_C4 (fun _ => ⟨some 3, [.num 1, .num 2]⟩) 100).1.1
  · exact ((claim_C4 (fun _ => ⟨some 3, []⟩) 100).2.2.1 (by omega) rfl).1
  · exact ((claim_C4 (fun p => if p = 1 then ⟨some 3, [.num 7]⟩ else ⟨some 3, []⟩) 100).2.2.2
      3 rfl (by omega) (by simp) (by simp) rfl).1

/-- Claim C9 counterexample: a parsed XML document with root tag
`WMS_Capabilities`, one `Layer` child and *no* `Capability` element anywhere
is accepted and layer extraction proceeds (the claim asserts every parsed
document lacking a `Capability` element is rejected with `SCHEMA_ERROR`):
the gate also admits documents whose root tag contains
`wms_capabilities`. -/
theorem claim_C9_counterexample :
    handler_onegeology_parse
        (.elem "WMS_Capabilities" ""
          (.cons (.elem "Layer" "" (.cons (.elem "Name" "geology" .nil) .nil)) .nil)) 10
      = .ok [{ layer_name := some "geology", title := none }] ∧
    handler_onegeology_parse
        (.elem "WMS_Capabilities" ""
          (.cons (.elem "Layer" "" (.cons (.elem "Name" "geology" .nil) .nil)) .nil)) 10
      ≠ .error .SCHEMA_ERROR := by
  refine ⟨rfl, ?_⟩
  intro h
  rw [show handler_onegeology_parse
        (.elem "WMS_Capabilities" ""
          (.cons (.elem "Layer" "" (.cons (.elem "Name" "geology" .nil) .nil)) .nil)) 10
      = .ok [{ layer_name := some "geology", title := none }] from rfl] at h
  exact Except.noConfusion h

/-- Claim C9 (amended): the WMS handler proceeds from a parsed XML document
to layer extraction iff the lowercased root tag contains
`wms_capabilities` *or* the document contains a `Capability` element
(namespace-agnostic lookup); a parsed document with neither is rejected
with `SCHEMA_ERROR`. -/
theorem claim_C9 (root : Xml) (limit : Nat) :
    ((containsSub "wms_capabilities".toList (lowerChars root.tag.toList) = true
        ∨ Xml.findAllLocal "Capability" root ≠ []) →
      handler_onegeology_parse root limit
        = .ok (collectLayers limit (Xml.findAllLocal "Layer" root) [])) ∧
    ((containsSub "wms_capabilities".toList (lowerChars root.tag.toList) = false
        ∧ Xml.findAllLocal "Capability" root = []) →
      handler_onegeology_parse root limit = .error .SCHEMA_ERROR) := by
  constructor
  · intro h
    unfold handler_onegeology_parse
    rw [if_neg]
    simp only [Bool.not_eq_true', Bool.not_eq_false, Bool.or_eq_true, Bool.not_eq_true]
    rcases h with h | h
    · exact Or.inl h
    · exact Or.inr (List.isEmpty_eq_false.mpr h)
  · rintro ⟨h1, h2⟩
    unfold handler_onegeology_parse
    rw [if_pos]
    simp only [Bool.not_eq_true', Bool.or_eq_false_iff]
    exact ⟨h1, by simp [h2]⟩

/-- Claim C9 witness: a document whose root tag is unrelated and that has no
`Capability` element is rejected; one with a `Capability` element is
accepted. -/
theorem claim_C9_witness :
    handler_onegeology_parse (.elem "Totally" "" .nil) 5 = .error .SCHEMA_ERROR ∧
    handler_onegeology_parse
        (.elem "Root" ""
          (.cons (.elem "Capability" ""
            (.cons (.elem "Layer" "" (.cons (.elem "Title" "t" .nil) .nil)) .nil)) .nil)) 5
      = .ok [{ layer_name := none, title := some "t" }] := by
  constructor
  · exact (claim_C9 (.elem "Totally" "" .nil) 5).2 ⟨rfl, rfl⟩
  · rw [(claim_C9 _ 5).1 (Or.inr (by intro h; exact List.noConfusion h))]
    rfl

/-- The orchestrator's source loop records one manifest entry per index, in
order — no failure aborts it. -/
theorem pipeLoop_fst (exec : Nat → SourceOutcome) :
    ∀ (idxs : List Nat) (entries : List SrcEntry) (summary : Summary) (all_ok : Bool),
    (pipeLoop exec idxs entries summary all_ok).1
      = entries ++ idxs.map (fun i => entryOf (exec i))
  | [], entries, summary, all_ok => by simp [pipeLoop]
  | i :: rest, entries, summary, all_ok => by
    simp only [pipeLoop]
    by_cases h : outcomeOk (exec i) = true
    · rw [if_pos h, pipeLoop_fst exec rest]
      simp
    · rw [if_neg h, pipeLoop_fst exec rest]
      simp

/-- The loop increments `sources_ok` once per successful source. -/
theorem pipeLoop_ok_count (exec : Nat → SourceOutcome) :
    ∀ (idxs : List Nat) (entries : List SrcEntry) (summary : Summary) (all_ok : Bool),
    (pipeLoop exec idxs entries summary all_ok).2.1.sources_ok
      = summary.sources_ok + idxs.countP (fun i => outcomeOk (exec i))
  | [], entries, summary, all_ok => by simp [pipeLoop]
  | i :: rest, entries, summary, all_ok => by
    simp only [pipeLoop]
    by_cases h : outcomeOk (exec i) = true
    · rw [if_pos h, pipeLoop_ok_count exec rest]
      simp only [List.countP_cons, h, if_true]
      omega
    · rw [if_neg h, pipeLoop_ok_count exec rest]
      rw [Bool.not_eq_true] at h
      simp [List.countP_cons, h]

/-- The loop increments `sources_failed` once per failing source. -/
theorem pipeLoop_failed_count (exec : Nat → SourceOutcome) :
    ∀ (idxs : List Nat) (entries : List SrcEntry) (summary : Summary) (all_ok : Bool),
    (pipeLoop exec idxs entries summary all_ok).2.1.sources_failed
      = summary.sources_failed + idxs.countP (fun i => !(outcomeOk (exec i)))
  | [], entries, summary, all_ok => by simp [pipeLoop]
  | i :: rest, entries, summary, all_ok => by
    simp only [pipeLoop]
    by_cases h : outcomeOk (exec i) = true
    · rw [if_pos h, pipeLoop_failed_count exec rest]
      simp [List.countP_cons, h]
    · rw [if_neg h, pipeLoop_failed_count exec rest]
      rw [Bool.not_eq_true] at h
      simp only [List.countP_cons, h, Bool.not_false, if_true]
      omega

/-- The loop's `all_ok` flag survives iff every source succeeded. -/
theorem pipeLoop_all_ok (exec : Nat → SourceOutcome) :
    ∀ (idxs : List Nat) (entries : List SrcEntry) (summary : Summary) (all_ok : Bool),
    (pipeLoop exec idxs entries summary all_ok).2.2
      = (all_ok && idxs.all (fun i => outcomeOk (exec i)))
  | [], entries, summary, all_ok => by simp [pipeLoop]
  | i :: rest, entries, summary, all_ok => by
    simp only [pipeLoop]
    by_cases h : outcomeOk (exec i) = true
    · rw [if_pos h, pipeLoop_all_ok exec rest]
      simp [h]
    · rw [if_neg h, pipeLoop_all_ok exec rest]
      rw [Bool.not_eq_true] at h
      simp [h]

/-- Claim C1: for every config whose `sources` value is a non-empty list of
`N` entries, the orchestrator attempts all `N` sources (one manifest entry
each, failures never abort the loop), the single manifest write carries
`sources_ok = N − K` and `sources_failed = K` where `K` counts the failing
sources, and the exit code is 0 iff `K = 0` or `allow_partial` (config flag
or CLI override) is set. -/
theorem claim_C1 (config : List (String × Json)) (allow_partial_override : Bool)
    (exec : Nat → SourceOutcome) (srcs : List Json)
    (hsrcs : pyOrElse (config.lookup "sources") (Json.arr []) = .arr srcs)
    (hne : srcs ≠ []) :
    (run_pipeline config allow_partial_override exec).attempted = srcs.length ∧
    ∃ m, (run_pipeline config allow_partial_override exec).manifest_writes = [m] ∧
      m.sources.length = srcs.length ∧
      m.summary.sources_ok
        = srcs.length - (List.range srcs.length).countP (fun i => !(outcomeOk (exec i))) ∧
      m.summary.sources_failed
        = (List.range srcs.length).countP (fun i => !(outcomeOk (exec i))) ∧
      ((run_pipeline config allow_partial_override exec).exit_code = 0 ↔
        ((List.range srcs.length).countP (fun i => !(outcomeOk (exec i))) = 0
          ∨ (jsonTruthy ((objGet (pyOrElse (config.lookup "run") (Json.obj []))
                "allow_partial").getD (Json.bool false))
              || allow_partial_override) = true)) := by
  obtain ⟨s0, rest, rfl⟩ := List.exists_cons_of_ne_nil hne
  rcases hpl : pipeLoop exec (List.range (s0 :: rest).length) [] ⟨0, 0, 0⟩ true
    with ⟨entries, summary, all_ok⟩
  have hrun : run_pipeline config allow_partial_override exec
      = ⟨[⟨none, entries, summary, all_ok,
            if all_ok || (jsonTruthy ((objGet (pyOrElse (config.lookup "run") (Json.obj []))
                "allow_partial").getD (Json.bool false)) || allow_partial_override)
            then 0 else 1⟩],
         (s0 :: rest).length, all_ok,
         if all_ok || (jsonTruthy ((objGet (pyOrElse (config.lookup "run") (Json.obj []))
             "allow_partial").getD (Json.bool false)) || allow_partial_override)
         then 0 else 1⟩ := by
    simp only [run_pipeline, hsrcs, hpl]
  have hent : entries = (List.range (s0 :: rest).length).map (fun i => entryOf (exec i)) := by
    have := pipeLoop_fst exec (List.range (s0 :: rest).length) [] ⟨0, 0, 0⟩ true
    rw [hpl] at this
    simpa using this
  have hok : summary.sources_ok
      = (List.range (s0 :: rest).length).countP (fun i => outcomeOk (exec i)) := by
    have := pipeLoop_ok_count exec (List.range (s0 :: rest).length) [] ⟨0, 0, 0⟩ true
    rw [hpl] at this
    simpa using this
  have hfail : summary.sources_failed
      = (List.range (s0 :: rest).length).countP (fun i => !(outcomeOk (exec i))) := by
    have := pipeLoop_failed_count exec (List.range (s0 :: rest).length) [] ⟨0, 0, 0⟩ true
    rw [hpl] at this
    simpa using this
  have hallok : all_ok = (List.range (s0 :: rest).length).all (fun i => outcomeOk (exec i)) := by
    have := pipeLoop_all_ok exec (List.range (s0 :: rest).length) [] ⟨0, 0, 0⟩ true
    rw [hpl] at this
    simpa using this
  have hsplit : (List.range (s0 :: rest).length).countP (fun i => outcomeOk (exec i))
      + (List.range (s0 :: rest).length).countP (fun i => !(outcomeOk (exec i)))
      = (s0 :: rest).length := by
    have h := List.length_eq_countP_add_countP (p := fun i => outcomeOk (exec i))
      (l := List.range (s0 :: rest).length)
    simp only [List.length_range] at h
    have h2 : (List.range (s0 :: rest).length).countP (fun a => decide ¬(outcomeOk (exec a) = true))
        = (List.range (s0 :: rest).length).countP (fun i => !(outcomeOk (exec i))) := by
      apply List.countP_congr
      intro a _
      simp
    omega
  have hall : ((List.range (s0 :: rest).length).all (fun i => outcomeOk (exec i)) = true) ↔
      (List.range (s0 :: rest).length).countP (fun i => !(outcomeOk (exec i))) = 0 := by
    rw [List.all_eq_true, List.countP_eq_zero]
    constructor
    · intro h a ha
      simp [h a ha]
    · intro h a ha
      have := h a ha
      simp only [Bool.not_eq_true'] at this
      simpa using this
  rw [hrun]
  refine ⟨rfl, ⟨_, rfl, ?_, ?_, ?_, ?_⟩⟩
  · show entries.length = (s0 :: rest).length
    rw [hent]
    simp
  · show summary.sources_ok = _
    omega
  · show summary.sources_failed = _
    exact hfail
  · show (if (all_ok || _) = true then (0 : Nat) else 1) = 0 ↔ _
    rw [hallok]
    by_cases hA : (List.range (s0 :: rest).length).all (fun i => outcomeOk (exec i)) = true
    · have hK0 := hall.mp hA
      rw [hA]
      simp only [Bool.true_or, if_true]
      exact ⟨fun _ => Or.inl hK0, fun _ => trivial⟩
    · rw [Bool.not_eq_true] at hA
      by_cases hP : (jsonTruthy ((objGet (pyOrElse (config.lookup "run") (Json.obj []))
          "allow_partial").getD (Json.bool false)) || allow_partial_override) = true
      · rw [hA]
        simp only [Bool.false_or]
        rw [hP]
        simp only [if_true]
        exact ⟨fun _ => Or.inr trivial, fun _ => trivial⟩
      · rw [Bool.not_eq_true] at hP
        have hK : (List.range (s0 :: rest).length).countP (fun i => !(outcomeOk (exec i))) ≠ 0 := by
          intro h0
          rw [hall.mpr h0] at hA
          exact Bool.noConfusion hA
        rw [hA, hP]
        simp only [Bool.false_or]
        rw [if_neg (fun hcon => Bool.noConfusion hcon)]
        constructor
        · intro h10
          exact absurd h10 (by omega)
        · rintro (hK0 | hap)
          · exact absurd hK0 hK
          · exact Bool.noConfusion hap

/-- Claim C1 witness: two sources, the second failing, `allow_partial`
unset — both attempted and the exit code is not 0. -/
theorem claim_C1_witness :
    (run_pipeline [("sources", .arr [.num 0, .num 1])] false
      (fun i => if i = 0 then .ok ⟨"a", true, some [], true, 0, none⟩ else .error "boom")).attempted
      = 2 ∧
    ¬ ((run_pipeline [("sources", .arr [.num 0, .num 1])] false
      (fun i => if i = 0 then .ok ⟨"a", true, some [], true, 0, none⟩ else .error "boom")).exit_code
      = 0) := by
  have h := claim_C1 [("sources", .arr [.num 0, .num 1])] false
    (fun i => if i = 0 then .ok ⟨"a", true, some [], true, 0, none⟩ else .error "boom")
    [.num 0, .num 1] rfl (by intro hx; exact List.noConfusion hx)
  refine ⟨h.1, ?_⟩
  obtain ⟨m, _, _, _, _, hiff⟩ := h.2
  intro h0
  rcases hiff.mp h0 with hK | hap
  · exact absurd hK (by decide)
  · exact absurd hap (by decide)

/-- Claim C8 counterexample: when the config file is missing (or unreadable
or invalid JSON), `cli.main` propagates the exception from `json.loads` —
no manifest is written and the process does not exit with code 2, contrary
to the claim. -/
theorem claim_C8_counterexample :
    cli_main (.error "FileNotFoundError: configs/missing.json") false (fun _ => .error "unused")
      = .error "FileNotFoundError: configs/missing.json" := rfl

/-- Claim C8 (amended): when the parsed config's `sources` value is missing,
falsy, not a list, or an empty list, `run_pipeline` is fatal with exit code
2, attempts no source, and writes the manifest exactly once recording the
fatal error; but a missing or unparsable config *file* makes the CLI raise
an uncaught exception before the pipeline starts — no manifest, no exit
code 2. -/
theorem claim_C8 (config : List (String × Json)) (override : Bool)
    (exec : Nat → SourceOutcome)
    (hbad : ∀ (s : Json) (rest : List Json),
      pyOrElse (config.lookup "sources") (Json.arr []) ≠ .arr (s :: rest)) :
    run_pipeline config override exec
      = ⟨[⟨some "config.sources must be a non-empty list", [], ⟨0, 0, 0⟩, false, 2⟩],
         0, false, 2⟩ ∧
    (∀ (e : String) (allow : Bool) (exec2 : Nat → SourceOutcome),
      cli_main (.error e) allow exec2 = .error e) := by
  refine ⟨?_, fun e allow exec2 => rfl⟩
  rcases hj : pyOrElse (config.lookup "sources") (Json.arr [])
    with _ | b | n | s | xs | fs
  · simp only [run_pipeline, hj]
  · simp only [run_pipeline, hj]
  · simp only [run_pipeline, hj]
  · simp only [run_pipeline, hj]
  · cases xs with
    | nil => simp only [run_pipeline, hj]
    | cons s rest => exact absurd hj (hbad s rest)
  · simp only [run_pipeline, hj]

/-- Claim C8 witness: a config without a `sources` key is fatal with exit
code 2, zero sources attempted, and a single manifest write recording the
fatal error. -/
theorem claim_C8_witness :
    run_pipeline [] false (fun _ => .error "unused")
      = ⟨[⟨some "config.sources must be a non-empty list", [], ⟨0, 0, 0⟩, false, 2⟩],
         0, false, 2⟩ :=
  (claim_C8 [] false (fun _ => .error "unused")
    (fun s rest h => by simp [pyOrElse] at h)).1


end TFM
